import Mathlib

/-
Verification of the Raft-backed key-value store layer (src/kv/raft.rs).

The file shallowly embeds the Rust source:
  * `Mutation` and `Read` are the two command sum types of the source.
  * `State.mutate` and `State.read` embed the state-machine entry points
    (`impl raft::State for State`), parametrised over the abstract store
    interface `DynStore` that mirrors the `Box<dyn Store>` field.
  * `Raft.get` / `Raft.set` / `Raft.delete` / `Raft.iterPrefix` embed the
    store adapter (`impl Store for Raft`), parametrised over the consensus
    collaborator handle `RaftClient`.
Code of the repository that is not under src/ (the `serialize`/`deserialize`
helpers of `crate::utility`, the `Store` trait backend, the `raft::Raft`
client) is modelled from the specification, as marked on each definition.
-/

namespace ToyKV

/-- Opaque byte sequences: keys, values, prefixes and wire payloads. -/
abbrev Bytes := List Nat

/-- Modelled from the spec: the error taxonomy of §7 — CodecError for
malformed command/result bytes, StoreError for storage failures, and the
opaque ConsensusError passed through from the collaborator. The Rust
`Error` type lives outside src/. -/
inductive Error where
  | codec (msg : String)
  | store (msg : String)
  | consensus (msg : String)
deriving DecidableEq, Repr

/-- A state machine mutation (source enum `Mutation`): deletes a key, or
sets a key to a value. -/
inductive Mutation where
  | Delete (key : Bytes)
  | Set (key : Bytes) (value : Bytes)
deriving DecidableEq, Repr

/-- A state machine read (source enum `Read`): fetches a key, or fetches
the pairs under a key prefix. -/
inductive Read where
  | Get (key : Bytes)
  | GetPrefix (pre : Bytes)
deriving DecidableEq, Repr

/-- Modelled from the spec: a length-prefixed byte-sequence field of the
wire format (`crate::utility::serialize` is outside src/). -/
def writeChunk (xs : Bytes) : Bytes := xs.length :: xs

/-- Modelled from the spec: reads one length-prefixed field back, failing
with a CodecError on truncated input. -/
def readChunk (bs : Bytes) : Except Error (Bytes × Bytes) :=
  match bs with
  | [] => .error (.codec "eof")
  | n :: rest =>
    if n ≤ rest.length then .ok (rest.take n, rest.drop n)
    else .error (.codec "eof")

/-- Modelled from the spec: the stable tagged-union encoding of a
`Mutation` (§6 wire formats; tag order follows the source declaration
order: Delete then Set). -/
def serializeMutation : Mutation → Bytes
  | .Delete k => 0 :: writeChunk k
  | .Set k v => 1 :: writeChunk k ++ writeChunk v

/-- Modelled from the spec: decoding of a `Mutation`; malformed or
unrecognized bytes fail with a CodecError and never partially populate a
value. -/
def deserializeMutation (bs : Bytes) : Except Error Mutation :=
  match bs with
  | [] => .error (.codec "tag")
  | t :: rest =>
    if t = 0 then
      match readChunk rest with
      | .error e => .error e
      | .ok (k, rem) => if rem = [] then .ok (.Delete k) else .error (.codec "trailing")
    else if t = 1 then
      match readChunk rest with
      | .error e => .error e
      | .ok (k, rem) =>
        match readChunk rem with
        | .error e => .error e
        | .ok (v, rem2) => if rem2 = [] then .ok (.Set k v) else .error (.codec "trailing")
    else .error (.codec "tag")

/-- Modelled from the spec: the stable tagged-union encoding of a `Read`
(tag order follows the source declaration order: Get then GetPrefix). -/
def serializeRead : Read → Bytes
  | .Get k => 0 :: writeChunk k
  | .GetPrefix p => 1 :: writeChunk p

/-- Modelled from the spec: decoding of a `Read`; malformed bytes fail
with a CodecError. -/
def deserializeRead (bs : Bytes) : Except Error Read :=
  match bs with
  | [] => .error (.codec "tag")
  | t :: rest =>
    if t = 0 then
      match readChunk rest with
      | .error e => .error e
      | .ok (k, rem) => if rem = [] then .ok (.Get k) else .error (.codec "trailing")
    else if t = 1 then
      match readChunk rest with
      | .error e => .error e
      | .ok (p, rem) => if rem = [] then .ok (.GetPrefix p) else .error (.codec "trailing")
    else .error (.codec "tag")

/-- Modelled from the spec: encoding of the Get result payload, an
optional byte sequence; the absent marker is tag 0, a present value is
tag 1 followed by the value. -/
def serializeOptBytes : Option Bytes → Bytes
  | none => [0]
  | some v => 1 :: writeChunk v

/-- Modelled from the spec: decoding of the Get result payload. -/
def deserializeOptBytes (bs : Bytes) : Except Error (Option Bytes) :=
  match bs with
  | [] => .error (.codec "tag")
  | t :: rest =>
    if t = 0 then
      if rest = [] then .ok none else .error (.codec "trailing")
    else if t = 1 then
      match readChunk rest with
      | .error e => .error e
      | .ok (v, rem) => if rem = [] then .ok (some v) else .error (.codec "trailing")
    else .error (.codec "tag")

/-- Modelled from the spec: encoding of the GetPrefix result payload, an
ordered sequence of (key, value) pairs, length-prefixed. -/
def serializePairs (pairs : List (Bytes × Bytes)) : Bytes :=
  pairs.length :: pairs.foldr (fun kv acc => writeChunk kv.1 ++ writeChunk kv.2 ++ acc) []

/-- Modelled from the spec: reads `n` pairs back from the wire. -/
def readPairs : Nat → Bytes → Except Error (List (Bytes × Bytes) × Bytes)
  | 0, rest => .ok ([], rest)
  | n + 1, rest =>
    match readChunk rest with
    | .error e => .error e
    | .ok (k, r1) =>
      match readChunk r1 with
      | .error e => .error e
      | .ok (v, r2) =>
        match readPairs n r2 with
        | .error e => .error e
        | .ok (ps, r3) => .ok ((k, v) :: ps, r3)

/-- Modelled from the spec: decoding of the GetPrefix result payload. -/
def deserializePairs (bs : Bytes) : Except Error (List (Bytes × Bytes)) :=
  match bs with
  | [] => .error (.codec "tag")
  | n :: rest =>
    match readPairs n rest with
    | .error e => .error e
    | .ok (ps, rem) => if rem = [] then .ok ps else .error (.codec "trailing")

/-- Modelled from the spec: the generic key-value store interface (§6,
"interface consumed from the underlying store collaborator") that the
Rust `Store` trait provides: point lookup, assignment, deletion and
prefix iteration, each fallible with a store-level error. A value of
`DynStore σ` plays the role of the `Box<dyn Store>` the state machine
owns, with explicit state `σ`. -/
structure DynStore (σ : Type) where
  get : σ → Bytes → Except Error (Option Bytes)
  set : σ → Bytes → Bytes → Except Error σ
  delete : σ → Bytes → Except Error σ
  iterPrefix : σ → Bytes → List (Except Error (Bytes × Bytes))

/-- `collect::<Result<Vec<_>, Error>>()` on the prefix iterator: succeeds
with the list of values when every item is Ok, otherwise short-circuits
with the first error. -/
def collectResults {α : Type} : List (Except Error α) → Except Error (List α)
  | [] => .ok []
  | x :: xs =>
    match x with
    | .error e => .error e
    | .ok a =>
      match collectResults xs with
      | .error e => .error e
      | .ok rest => .ok (a :: rest)

/-- `State::mutate` from the source: decodes a `Mutation` from the command
bytes, applies it to the owned store, and returns an empty payload. The
Rust `&mut self` receiver is embedded as explicit state passing: the
result carries the store state alongside the `Result<Vec<u8>>`. -/
def State.mutate {σ : Type} (d : DynStore σ) (s : σ) (command : Bytes) :
    σ × Except Error Bytes :=
  match deserializeMutation command with
  | .error e => (s, .error e)
  | .ok (.Delete key) =>
    match d.delete s key with
    | .error e => (s, .error e)
    | .ok s2 => (s2, .ok [])
  | .ok (.Set key value) =>
    match d.set s key value with
    | .error e => (s, .error e)
    | .ok s2 => (s2, .ok [])

/-- `State::read` from the source: decodes a `Read` from the command
bytes, queries the store (`get` or prefix iteration collected through
`Result`), and serializes the result. The Rust `&self` receiver takes the
store state immutably. -/
def State.read {σ : Type} (d : DynStore σ) (s : σ) (command : Bytes) :
    Except Error Bytes :=
  match deserializeRead command with
  | .error e => .error e
  | .ok (.Get key) =>
    match d.get s key with
    | .error e => .error e
    | .ok v => .ok (serializeOptBytes v)
  | .ok (.GetPrefix p) =>
    match collectResults (d.iterPrefix s p) with
    | .error e => .error e
    | .ok pairs => .ok (serializePairs pairs)

/-- Modelled from the spec: the consensus collaborator handle
(`raft::Raft`, outside src/), exposing `mutate(bytes) -> bytes` and
`read(bytes) -> bytes`, each of which may fail with an opaque error. -/
structure RaftClient where
  mutate : Bytes → Except Error Bytes
  read : Bytes → Except Error Bytes

/-- `Raft::get` from the source adapter: encodes `Read::Get(key)`, sends
it through the collaborator's `read`, and decodes the optional value. -/
def Raft.get (c : RaftClient) (key : Bytes) : Except Error (Option Bytes) :=
  match c.read (serializeRead (.Get key)) with
  | .error e => .error e
  | .ok resp => deserializeOptBytes resp

/-- `Raft::set` from the source adapter: encodes `Mutation::Set`, sends it
through the collaborator's `mutate`, discards the response payload and
returns `Ok(())`. -/
def Raft.set (c : RaftClient) (key value : Bytes) : Except Error Unit :=
  match c.mutate (serializeMutation (.Set key value)) with
  | .error e => .error e
  | .ok _ => .ok ()

/-- `Raft::delete` from the source adapter: encodes `Mutation::Delete`,
sends it through the collaborator's `mutate`, discards the response
payload and returns `Ok(())`. -/
def Raft.delete (c : RaftClient) (key : Bytes) : Except Error Unit :=
  match c.mutate (serializeMutation (.Delete key)) with
  | .error e => .error e
  | .ok _ => .ok ()

/-- `Raft::iter_prefix` from the source adapter: encodes
`Read::GetPrefix`, sends it through the collaborator's `read`, and
decodes the materialized pair list. The source calls `.unwrap()` on both
the collaborator call and the decode, so a failure panics instead of
returning an error; the panic is embedded as `none`. -/
def Raft.iterPrefix (c : RaftClient) (pre : Bytes) :
    Option (List (Bytes × Bytes)) :=
  match c.read (serializeRead (.GetPrefix pre)) with
  | .error _ => none
  | .ok resp =>
    match deserializePairs resp with
    | .error _ => none
    | .ok items => some items

/-- Modelled from the spec: content of the underlying local storage
engine (outside src/) — a finite association of keys to values, kept in
the engine's iteration order. -/
abbrev StoreContent := List (Bytes × Bytes)

/-- Modelled from the spec: point lookup of the underlying store. -/
def storeGet (s : StoreContent) (k : Bytes) : Option Bytes :=
  (s.find? (fun kv => kv.1 == k)).map (fun kv => kv.2)

/-- Modelled from the spec: assignment in the underlying store — replaces
the binding in place when the key is present, otherwise appends it. -/
def storeSet (s : StoreContent) (k v : Bytes) : StoreContent :=
  match s with
  | [] => [(k, v)]
  | kv :: rest => if kv.1 == k then (k, v) :: rest else kv :: storeSet rest k v

/-- Modelled from the spec: deletion in the underlying store. -/
def storeDelete (s : StoreContent) (k : Bytes) : StoreContent :=
  s.filter (fun kv => !(kv.1 == k))

/-- Modelled from the spec: the pairs the store's prefix iteration
yields — exactly the pairs whose key starts with the prefix, in the
store's iteration order, each wrapped in Ok. -/
def storeIterPairs (s : StoreContent) (p : Bytes) : List (Bytes × Bytes) :=
  s.filter (fun kv => p.isPrefixOf kv.1)

/-- Modelled from the spec: a concrete, never-failing instance of the
store interface over `StoreContent`, used to instantiate the state
machine. -/
def listStore : DynStore StoreContent where
  get s k := .ok (storeGet s k)
  set s k v := .ok (storeSet s k v)
  delete s k := .ok (storeDelete s k)
  iterPrefix s p := (storeIterPairs s p).map .ok

/-- A consensus collaborator that commits and serves against a single
state machine over `listStore` — the local, single-replica view used to
connect the adapter to the state machine. -/
def clientOf (s : StoreContent) : RaftClient where
  mutate bs := (State.mutate listStore s bs).2
  read bs := State.read listStore s bs

/-- A direct Set/Delete operation issued against a store, before any
encoding — the spec side of the replay-fidelity claim. -/
inductive Op where
  | set (key value : Bytes)
  | del (key : Bytes)
deriving DecidableEq, Repr

/-- Applying one operation directly against the store. -/
def applyOp (s : StoreContent) : Op → StoreContent
  | .set k v => storeSet s k v
  | .del k => storeDelete s k

/-- The encoding of one operation, as the adapter would produce it. -/
def encodeOp : Op → Bytes
  | .set k v => serializeMutation (.Set k v)
  | .del k => serializeMutation (.Delete k)

/-- Feeding an ordered list of command encodings to `State.mutate`,
threading the store state. -/
def replayLog (s : StoreContent) : List Bytes → StoreContent
  | [] => s
  | c :: cs => replayLog (State.mutate listStore s c).1 cs

/-- An invocation the consensus collaborator performs against the state
machine: a committed mutation or a read-only query. -/
inductive Event where
  | mutateCmd (command : Bytes)
  | readCmd (command : Bytes)

/-- One collaborator invocation against the state machine, returning the
store state it leaves behind together with the response. `readCmd` calls
`State.read`, whose `&self` receiver cannot touch the store. -/
def replicaStep {σ : Type} (d : DynStore σ) (s : σ) :
    Event → σ × Except Error Bytes
  | .mutateCmd c => State.mutate d s c
  | .readCmd c => (s, State.read d s c)

/-- A collaborator whose `mutate` and `read` both fail with a fixed
consensus error, for exercising the adapter's error paths. -/
def failingClient : RaftClient where
  mutate _ := .error (.consensus "not leader")
  read _ := .error (.consensus "not leader")

/-- A collaborator whose `mutate` succeeds with an arbitrary non-empty
response payload, for exercising the adapter's success paths. -/
def respClient : RaftClient where
  mutate _ := .ok [9, 9]
  read _ := .ok []

/-- A store whose prefix iteration yields one Ok pair and then a store
error, for exercising the state machine's iteration error path. -/
def faultyStore : DynStore Unit where
  get _ _ := .ok none
  set s _ _ := .ok s
  delete s _ := .ok s
  iterPrefix _ _ := [.ok ([1], [2]), .error (.store "disk")]

theorem readChunk_writeChunk (xs t : Bytes) :
    readChunk (writeChunk xs ++ t) = .ok (xs, t) := by
  simp [readChunk, writeChunk, List.take_left, List.drop_left]

theorem readChunk_writeChunk_nil (xs : Bytes) :
    readChunk (writeChunk xs) = .ok (xs, []) := by
  simpa using readChunk_writeChunk xs []

theorem deserialize_serializeMutation (m : Mutation) :
    deserializeMutation (serializeMutation m) = .ok m := by
  cases m with
  | Delete k =>
    simp [serializeMutation, deserializeMutation, readChunk_writeChunk_nil]
  | Set k v =>
    simp [serializeMutation, deserializeMutation, readChunk_writeChunk,
      readChunk_writeChunk_nil]

theorem deserialize_serializeRead (r : Read) :
    deserializeRead (serializeRead r) = .ok r := by
  cases r with
  | Get k => simp [serializeRead, deserializeRead, readChunk_writeChunk_nil]
  | GetPrefix p => simp [serializeRead, deserializeRead, readChunk_writeChunk_nil]

theorem deserialize_serializeOptBytes (v : Option Bytes) :
    deserializeOptBytes (serializeOptBytes v) = .ok v := by
  cases v with
  | none => rfl
  | some xs => simp [serializeOptBytes, deserializeOptBytes, readChunk_writeChunk_nil]

theorem readChunk_error {bs : Bytes} {e : Error} (h : readChunk bs = .error e) :
    e = .codec "eof" := by
  cases bs with
  | nil =>
    simp only [readChunk] at h
    exact (Except.error.inj h).symm
  | cons n rest =>
    simp only [readChunk] at h
    split at h
    · exact absurd h (by simp)
    · exact (Except.error.inj h).symm

theorem deserializeMutation_error_codec {bs : Bytes} {e : Error}
    (h : deserializeMutation bs = .error e) : ∃ msg, e = Error.codec msg := by
  unfold deserializeMutation at h
  repeat' split at h
  all_goals first
    | exact ⟨"tag", (Except.error.inj h).symm⟩
    | exact ⟨"trailing", (Except.error.inj h).symm⟩
    | (rename_i heq
       exact ⟨"eof", by rw [← Except.error.inj h]; exact readChunk_error heq⟩)
    | simp at h

theorem deserializeRead_error_codec {bs : Bytes} {e : Error}
    (h : deserializeRead bs = .error e) : ∃ msg, e = Error.codec msg := by
  unfold deserializeRead at h
  repeat' split at h
  all_goals first
    | exact ⟨"tag", (Except.error.inj h).symm⟩
    | exact ⟨"trailing", (Except.error.inj h).symm⟩
    | (rename_i heq
       exact ⟨"eof", by rw [← Except.error.inj h]; exact readChunk_error heq⟩)
    | simp at h

theorem collectResults_map_ok {α : Type} (l : List α) :
    collectResults (l.map Except.ok) = .ok l := by
  induction l with
  | nil => rfl
  | cons x xs ih => simp [collectResults, ih]

theorem collectResults_firstError {α : Type} (l₁ : List α) (e : Error)
    (l₂ : List (Except Error α)) :
    collectResults (l₁.map Except.ok ++ .error e :: l₂) = .error e := by
  induction l₁ with
  | nil => rfl
  | cons x xs ih => simp [collectResults, ih]

theorem collectResults_ok_mem {α : Type} {l : List (Except Error α)}
    {as : List α} (h : collectResults l = .ok as) :
    ∀ x ∈ l, ∃ a, x = Except.ok a := by
  induction l generalizing as with
  | nil => simp
  | cons x xs ih =>
    intro y hy
    simp only [collectResults] at h
    cases x with
    | error e => exact absurd h (by simp)
    | ok a =>
      rcases hc : collectResults xs with e2 | rest
      · rw [hc] at h
        exact absurd h (by simp)
      · rcases List.mem_cons.mp hy with rfl | hmem
        · exact ⟨a, rfl⟩
        · exact ih hc y hmem

theorem mutate_encodeOp (s : StoreContent) (op : Op) :
    State.mutate listStore s (encodeOp op) = (applyOp s op, .ok []) := by
  cases op with
  | set k v =>
    simp [encodeOp, State.mutate, deserialize_serializeMutation, listStore, applyOp]
  | del k =>
    simp [encodeOp, State.mutate, deserialize_serializeMutation, listStore, applyOp]

/-- C1: for every ordered sequence of Set/Delete operations and every
starting store content, feeding each operation's encoding to
`State.mutate` in order produces store content identical to applying the
same operations directly against the same starting store. -/
theorem replay_fidelity (ops : List Op) (s : StoreContent) :
    replayLog s (ops.map encodeOp) = ops.foldl applyOp s := by
  induction ops generalizing s with
  | nil => rfl
  | cons op rest ih => simp [replayLog, mutate_encodeOp, List.foldl, ih]

/-- C2: a byte sequence that does not decode to a valid Mutation makes
`State.mutate` return a codec error with the store state unchanged, and
one that does not decode to a valid Read makes `State.read` return a
codec error (`State.read` takes the store immutably, so its content is
untouched by construction). -/
theorem malformed_input_safety {σ : Type} (d : DynStore σ) (s : σ) (bs : Bytes) :
    (∀ e, deserializeMutation bs = .error e →
      State.mutate d s bs = (s, .error e) ∧ ∃ msg, e = Error.codec msg) ∧
    (∀ e, deserializeRead bs = .error e →
      State.read d s bs = .error e ∧ ∃ msg, e = Error.codec msg) := by
  constructor
  · intro e h
    exact ⟨by simp [State.mutate, h], deserializeMutation_error_codec h⟩
  · intro e h
    exact ⟨by simp [State.read, h], deserializeRead_error_codec h⟩

theorem malformed_input_safety_witness :
    State.mutate listStore ([] : StoreContent) [7] =
      ([], .error (.codec "tag")) ∧
    State.read listStore ([] : StoreContent) [7] = .error (.codec "tag") :=
  ⟨((malformed_input_safety listStore [] [7]).1 (Error.codec "tag") rfl).1,
   ((malformed_input_safety listStore [] [7]).2 (Error.codec "tag") rfl).1⟩

/-- C3 counterexample: with a collaborator whose calls fail with the
consensus error "not leader", the adapter's `iter_prefix` does not return
that error to its caller — the source unwraps the failed call, so the
call panics, embedded here as `none`. This falsifies the claim that every
one of the four adapter operations surfaces collaborator errors
unmodified. -/
theorem iterPrefix_panics_on_error : Raft.iterPrefix failingClient [] = none := rfl

/-- C3 amended: `Raft.get`, `Raft.set` and `Raft.delete` return a failed
collaborator call's error to the caller unmodified (each issues exactly
one collaborator call, so no retry is possible), while
`Raft.iterPrefix` panics (`none`) on a failed collaborator call instead
of returning the error. -/
theorem error_passthrough_amended (c : RaftClient) (k v p : Bytes) (e : Error) :
    (c.read (serializeRead (Read.Get k)) = .error e → Raft.get c k = .error e) ∧
    (c.mutate (serializeMutation (Mutation.Set k v)) = .error e →
      Raft.set c k v = .error e) ∧
    (c.mutate (serializeMutation (Mutation.Delete k)) = .error e →
      Raft.delete c k = .error e) ∧
    (c.read (serializeRead (Read.GetPrefix p)) = .error e →
      Raft.iterPrefix c p = none) := by
  refine ⟨fun h => ?_, fun h => ?_, fun h => ?_, fun h => ?_⟩ <;>
    simp [Raft.get, Raft.set, Raft.delete, Raft.iterPrefix, h]

theorem error_passthrough_amended_witness :
    Raft.get failingClient [] = .error (.consensus "not leader") ∧
    Raft.set failingClient [] [] = .error (.consensus "not leader") ∧
    Raft.delete failingClient [] = .error (.consensus "not leader") ∧
    Raft.iterPrefix failingClient [] = none :=
  ⟨(error_passthrough_amended failingClient [] [] [] (.consensus "not leader")).1 rfl,
   (error_passthrough_amended failingClient [] [] [] (.consensus "not leader")).2.1 rfl,
   (error_passthrough_amended failingClient [] [] [] (.consensus "not leader")).2.2.1 rfl,
   (error_passthrough_amended failingClient [] [] [] (.consensus "not leader")).2.2.2 rfl⟩

/-- C4: round-trip fidelity of the command codec — decoding the encoding
of any Mutation and of any Read (empty keys, values and prefixes
included, since the quantification is total) yields the value back. -/
theorem codec_roundtrip (m : Mutation) (r : Read) :
    deserializeMutation (serializeMutation m) = .ok m ∧
    deserializeRead (serializeRead r) = .ok r :=
  ⟨deserialize_serializeMutation m, deserialize_serializeRead r⟩

/-- C5: `State.read` on an encoded GetPrefix returns the serialization of
exactly the pairs of the store whose key starts with the prefix, in the
store's iteration order — a fixed value, hence identical across repeated
calls on unchanged store state. -/
theorem prefix_correctness (s : StoreContent) (p : Bytes) :
    State.read listStore s (serializeRead (Read.GetPrefix p)) =
      .ok (serializePairs (storeIterPairs s p)) ∧
    ∀ kv : Bytes × Bytes,
      kv ∈ storeIterPairs s p ↔ kv ∈ s ∧ p.isPrefixOf kv.1 = true := by
  constructor
  · simp [State.read, deserialize_serializeRead, listStore, collectResults_map_ok]
  · intro kv
    simp [storeIterPairs, List.mem_filter]

/-- C6: `State.read` of Get on a key absent from the store returns the
encoded absent marker, on a key bound to the empty value it returns the
encoded present-empty value, the two encodings differ, and `Raft.get`
decodes them to `none` and `some []` respectively. -/
theorem absence_distinction (s1 s2 : StoreContent) (k : Bytes)
    (h1 : storeGet s1 k = none) (h2 : storeGet s2 k = some []) :
    State.read listStore s1 (serializeRead (Read.Get k)) =
      .ok (serializeOptBytes none) ∧
    State.read listStore s2 (serializeRead (Read.Get k)) =
      .ok (serializeOptBytes (some [])) ∧
    serializeOptBytes none ≠ serializeOptBytes (some []) ∧
    Raft.get (clientOf s1) k = .ok none ∧
    Raft.get (clientOf s2) k = .ok (some []) := by
  refine ⟨?_, ?_, by simp [serializeOptBytes, writeChunk], ?_, ?_⟩
  · simp [State.read, deserialize_serializeRead, listStore, h1]
  · simp [State.read, deserialize_serializeRead, listStore, h2]
  · simp [Raft.get, clientOf, State.read, deserialize_serializeRead, listStore,
      h1, deserialize_serializeOptBytes]
  · simp [Raft.get, clientOf, State.read, deserialize_serializeRead, listStore,
      h2, deserialize_serializeOptBytes]

theorem absence_distinction_witness :
    State.read listStore ([] : StoreContent) (serializeRead (Read.Get [107])) =
      .ok (serializeOptBytes none) ∧
    State.read listStore [([107], [])] (serializeRead (Read.Get [107])) =
      .ok (serializeOptBytes (some [])) ∧
    serializeOptBytes none ≠ serializeOptBytes (some []) ∧
    Raft.get (clientOf []) [107] = .ok none ∧
    Raft.get (clientOf [([107], [])]) [107] = .ok (some []) :=
  absence_distinction [] [([107], [])] [107] rfl rfl

/-- C7: from the empty store, applying the encodings of Set("a","1"),
Set("b","2"), Delete("a") in order and then reading GetPrefix("") yields
the encoding of exactly the single pair ("b","2") — keys and values taken
as their byte sequences. -/
theorem scenario_replay :
    State.read listStore
      (State.mutate listStore
        (State.mutate listStore
          (State.mutate listStore ([] : StoreContent)
            (serializeMutation (.Set [97] [49]))).1
          (serializeMutation (.Set [98] [50]))).1
        (serializeMutation (.Delete [97]))).1
      (serializeRead (.GetPrefix [])) = .ok (serializePairs [([98], [50])]) := rfl

/-- C8: for every input byte sequence — which either decodes to a Get,
decodes to a GetPrefix, or fails to decode — a read-only invocation of
the state machine leaves the store state unchanged (the source's `&self`
receiver, embedded as the state component of `replicaStep`). -/
theorem read_preserves_store {σ : Type} (d : DynStore σ) (s : σ) (bs : Bytes) :
    (replicaStep d s (Event.readCmd bs)).1 = s ∧
    ((∃ k, deserializeRead bs = .ok (Read.Get k)) ∨
     (∃ p, deserializeRead bs = .ok (Read.GetPrefix p)) ∨
     (∃ e, deserializeRead bs = .error e)) := by
  refine ⟨rfl, ?_⟩
  rcases h : deserializeRead bs with e | r
  · exact .inr (.inr ⟨e, rfl⟩)
  · cases r with
    | Get k => exact .inl ⟨k, rfl⟩
    | GetPrefix p => exact .inr (.inl ⟨p, rfl⟩)

/-- C9: whenever the collaborator's `mutate` succeeds, `Raft.set` and
`Raft.delete` return `Ok(())` for every response payload whatsoever — the
payload is discarded undecoded and cannot affect the result. -/
theorem mutation_response_ignored (c : RaftClient) (k v : Bytes) :
    (∀ resp, c.mutate (serializeMutation (Mutation.Set k v)) = .ok resp →
      Raft.set c k v = .ok ()) ∧
    (∀ resp, c.mutate (serializeMutation (Mutation.Delete k)) = .ok resp →
      Raft.delete c k = .ok ()) := by
  constructor <;> intro resp h <;> simp [Raft.set, Raft.delete, h]

theorem mutation_response_ignored_witness :
    Raft.set respClient [1] [2] = .ok () ∧ Raft.delete respClient [1] = .ok () :=
  ⟨(mutation_response_ignored respClient [1] [2]).1 [9, 9] rfl,
   (mutation_response_ignored respClient [1] [2]).2 [9, 9] rfl⟩

/-- C10: if the store's prefix iteration yields an error after some Ok
pairs, `State.read` on the encoded GetPrefix returns that first error and
no serialized pair sequence; conversely a successful read implies every
yielded item was Ok. -/
theorem iter_error_short_circuits {σ : Type} (d : DynStore σ) (s : σ) (p : Bytes) :
    (∀ (l₁ : List (Bytes × Bytes)) (e : Error)
        (l₂ : List (Except Error (Bytes × Bytes))),
      d.iterPrefix s p = l₁.map Except.ok ++ .error e :: l₂ →
      State.read d s (serializeRead (Read.GetPrefix p)) = .error e) ∧
    (∀ out, State.read d s (serializeRead (Read.GetPrefix p)) = .ok out →
      ∀ x ∈ d.iterPrefix s p, ∃ a, x = Except.ok a) := by
  constructor
  · intro l₁ e l₂ h
    simp [State.read, deserialize_serializeRead, h, collectResults_firstError]
  · intro out h x hx
    simp only [State.read, deserialize_serializeRead] at h
    rcases hc : collectResults (d.iterPrefix s p) with e | pairs
    · rw [hc] at h
      exact absurd h (by simp)
    · exact collectResults_ok_mem hc x hx

theorem iter_error_short_circuits_witness :
    State.read faultyStore () (serializeRead (Read.GetPrefix [])) =
      .error (.store "disk") :=
  (iter_error_short_circuits faultyStore () []).1 [([1], [2])] (.store "disk") [] rfl

end ToyKV
